import Mathlib

/-!
Shallow embedding of the asynchronous bulk-ingestion engine of the
SpotifySearch server (file `server.js`, mirrored in `src/unnamed/part_006`).

The embedded functions keep their source names: `processVideo`,
`processChannelAsync`, `processMissingVideosAsync`, `retrySkippedVideosAsync`,
`runCronJob`, `getChannelVideos`, and the decision block of
`POST /api/refresh-channel-count` (`hasNewVideosDecision`).

External effects (yt-dlp listing and subtitle download, the Gemini call,
and the pure URL-regex `extractYoutubeId`) are supplied through an
environment record `Env`; the MySQL tables `podcasts`, `skipped_videos`
and `channels` are an explicit `DB` value threaded through each function.
Background jobs are modelled as a list of observable job snapshots, one
per suspension point of the JS code (each `await`), so invariants "at any
point of the job's execution" are statements over every trace element.
-/

set_option maxRecDepth 100000

namespace SpotifySearch

/-- One entry of a yt-dlp flat-playlist listing, as built by
`getChannelVideos`: `{ id, title, url }`. -/
structure VideoRef where
  id : String
  title : String
  url : String
deriving Repr, DecidableEq

/-- A row of the `podcasts` table (the Item Store); only the columns the
core reads are modelled: `id`, `spotify_url`, `podcast_name`,
`episode_title`. -/
structure Podcast where
  pid : Nat
  url : String
  name : String
  title : String
deriving Repr, DecidableEq

/-- A row of the `skipped_videos` table (the Skip Ledger):
`video_id` (UNIQUE), `video_url`, `channel_name`, `video_title`,
`skip_reason`. -/
structure SkipRecord where
  videoId : String
  videoUrl : String
  channelName : String
  videoTitle : String
  skipReason : String
deriving Repr, DecidableEq

/-- A row of the `channels` table (the Source Registry), keyed by
`channel_name`. -/
structure ChannelRec where
  channelName : String
  channelUrl : String
  totalVideos : Nat
deriving Repr, DecidableEq

/-- The durable state: the three tables plus the auto-increment counter of
`podcasts.id`. -/
structure DB where
  podcasts : List Podcast
  skippedVideos : List SkipRecord
  channels : List ChannelRec
  nextId : Nat
deriving Repr, DecidableEq

/-- Result of `getYoutubeInfo` (it catches its own errors and falls back
to `Unknown` fields, so it is total). -/
structure YtInfo where
  title : String
  channel : String
deriving Repr, DecidableEq

/-- External collaborators.  `subtitles url lang` models
`downloadSubtitles` (`.ok none` is a null transcript, `.error` a thrown
exception), `gemini url` models `model.generateContent` together with the
parse-with-fallback that follows it (only the call itself can throw),
`allChannelVideos url` models the full yt-dlp flat-playlist listing of a
channel (before the `--playlist-end` cap), and `ytId` models the pure URL
regex `extractYoutubeId`. -/
structure Env where
  ytInfo : String → YtInfo
  subtitles : String → String → Except String (Option String)
  gemini : String → Except String String
  allChannelVideos : String → Except String (List VideoRef)
  ytId : String → Option String

/-- `SELECT id FROM podcasts WHERE spotify_url = ?` returned a row. -/
def DB.urlInPodcasts (db : DB) (url : String) : Bool :=
  db.podcasts.any (fun p => p.url = url)

/-- `SELECT id, skip_reason FROM skipped_videos WHERE video_id = ?`. -/
def DB.findSkip (db : DB) (videoId : String) : Option SkipRecord :=
  db.skippedVideos.find? (fun s => s.videoId = videoId)

/-- `INSERT IGNORE INTO skipped_videos ...` — `video_id` is UNIQUE, so a
duplicate insert is a no-op. -/
def insertIgnoreSkip (db : DB) (r : SkipRecord) : DB :=
  if db.skippedVideos.any (fun s => s.videoId = r.videoId) then db
  else { db with skippedVideos := db.skippedVideos ++ [r] }

/-- `INSERT INTO podcasts ...`, returning the new `insertId`. -/
def insertPodcast (db : DB) (url name title : String) : Nat × DB :=
  (db.nextId,
   { db with
     podcasts := db.podcasts ++ [⟨db.nextId, url, name, title⟩],
     nextId := db.nextId + 1 })

/-- `ytInfo.channel || 'Unknown'`. -/
def orUnknown (s : String) : String :=
  if s = "" then "Unknown" else s

/-- The transcript test `!transcript || transcript.length < 50` of
`processVideo`. -/
def badTranscript : Option String → Bool
  | none => true
  | some t => t.length < 50

/-- The non-throwing returns of `processVideo`: `{skipped, reason}` or
`{success, id, title, channel, summary}`. -/
inductive PVRes where
  | skipped (reason : String)
  | success (id : Nat) (title : String) (channel : String) (summary : String)
deriving Repr, DecidableEq

/-- Result of one `processVideo` call: its return value or thrown message,
the database afterwards, and whether the external subtitle download
(`downloadSubtitles`) was invoked during the call. -/
structure PVOut where
  result : Except String PVRes
  db : DB
  calledSubtitles : Bool

/-- `processVideo(url, videoId, skipExisting, language)` — the Item
Pipeline.  Both the `podcasts` lookup and the `skipped_videos` lookup are
inside `if (skipExisting)`, exactly as in the source. -/
def processVideo (env : Env) (db : DB) (url videoId : String)
    (skipExisting : Bool) (language : String) : PVOut :=
  let pre : Option PVRes :=
    if skipExisting then
      if db.urlInPodcasts url then some (.skipped "already_processed")
      else
        match db.findSkip videoId with
        | some s => some (.skipped s.skipReason)
        | none => none
    else none
  match pre with
  | some r => { result := .ok r, db := db, calledSubtitles := false }
  | none =>
    let info := env.ytInfo url
    match env.subtitles url language with
    | .error m => { result := .error m, db := db, calledSubtitles := true }
    | .ok t =>
      if badTranscript t then
        let db' := insertIgnoreSkip db
          ⟨videoId, url, orUnknown info.channel, orUnknown info.title, "no_subtitles"⟩
        { result := .ok (.skipped "no_subtitles"), db := db', calledSubtitles := true }
      else
        match env.gemini url with
        | .error m => { result := .error m, db := db, calledSubtitles := true }
        | .ok summary =>
          let idDb := insertPodcast db url (orUnknown info.channel) (orUnknown info.title)
          { result := .ok (.success idDb.1 info.title info.channel summary),
            db := idDb.2, calledSubtitles := true }

/-- `getChannelVideos(channelUrl, maxVideos)` — yt-dlp flat listing with
`--playlist-end maxVideos`; a failure is rethrown with a prefixed
message. -/
def getChannelVideos (env : Env) (channelUrl : String) (maxVideos : Nat) :
    Except String (List VideoRef) :=
  match env.allChannelVideos channelUrl with
  | .error m => .error ("Failed to fetch channel videos: " ++ m)
  | .ok vs => .ok (vs.take maxVideos)

/-- The decision block of `POST /api/refresh-channel-count`
(lines `let hasNewVideos = false` through the third branch): inputs are
the live video count, the indexed count, the newest live upload date and
the newest indexed upload date (dates modelled as naturals ordered like
`Date`). -/
def hasNewVideosDecision (totalVideos videosInDb : Nat)
    (lastVideoDate newestInDbDate : Option Nat) : Bool :=
  let missingVideos : Int := (totalVideos : Int) - (videosInDb : Int)
  if missingVideos > 0 then true
  else
    match lastVideoDate, newestInDbDate with
    | some l, some n => decide (n < l)
    | some _, none => decide (0 < videosInDb)
    | none, _ => false

/-- The `missingVideos` field of the `/api/refresh-channel-count`
response: `totalVideos - videosInDb` as a (possibly negative) JS
number. -/
def missingVideosCount (totalVideos videosInDb : Nat) : Int :=
  (totalVideos : Int) - (videosInDb : Int)

/-- The `lastVideoDate` derivation of `POST /api/refresh-channel-count`:
it stays null for an empty listing, a first video without an id, a
failing per-video detail call (the call sits in its own try/catch), or a
detail result without `upload_date`; otherwise it is the newest listed
video's upload date.  `detail` models the per-video yt-dlp detail call,
keyed by video id. -/
def lastVideoDateOf (liveVideos : List VideoRef)
    (detail : String → Except String (Option Nat)) : Option Nat :=
  match liveVideos with
  | [] => none
  | v :: _ =>
    if v.id ≠ "" then
      match detail v.id with
      | .error _ => none
      | .ok d => d
    else none

/-- The full `hasNewVideos` decision of `POST /api/refresh-channel-count`
with `totalVideos` (the live listing length) and `lastVideoDate` derived
from the live listing exactly as in the source. -/
def refreshChannelCountDecision (liveVideos : List VideoRef)
    (detail : String → Except String (Option Nat))
    (videosInDb : Nat) (newestInDbDate : Option Nat) : Bool :=
  hasNewVideosDecision liveVideos.length videosInDb
    (lastVideoDateOf liveVideos detail) newestInDbDate

/-- One entry of a job's `results` array:
`{title, status: success|skipped|failed, id?, summary?, reason?, error?}`.
`processChannelAsync` pushes a `summary` on success; the other two
runners do not, hence the `Option`. -/
inductive REntry where
  | success (title : String) (id : Nat) (summary : Option String)
  | skip (title reason : String)
  | fail (title err : String)
deriving Repr, DecidableEq

/-- A `channelJobs` map entry.  Fields the JS object only acquires later
(`currentVideo`, `error`, `channelUrl`, `totalVideosOnYoutube`,
`channelName`) are `Option`s / default `0` here. -/
structure Job where
  status : String
  url : String
  language : String
  channelName : Option String := none
  total : Nat := 0
  processed : Nat := 0
  skipped : Nat := 0
  failed : Nat := 0
  currentVideo : Option String := none
  results : List REntry := []
  error : Option String := none
  channelUrl : Option String := none
  totalVideosOnYoutube : Nat := 0
deriving Repr, DecidableEq

/-- The fields `GET /api/channel-status/:jobId` serializes. -/
def channelStatusPayload (j : Job) :
    String × String × Nat × Nat × Nat × Nat × Option String × List REntry × Option String :=
  (j.status, j.url, j.total, j.processed, j.skipped, j.failed,
   j.currentVideo, j.results, j.error)

/-- `processedCount + skippedCount + failedCount` of a job. -/
def Job.outcomeSum (j : Job) : Nat :=
  j.processed + j.skipped + j.failed

/-- The dedup step of `processChannelAsync`: one bulk
`SELECT spotify_url FROM podcasts` and a filter keeping candidates whose
`url` is not among them.  (It does not consult `skipped_videos`.) -/
def channelDedup (db : DB) (videos : List VideoRef) : List VideoRef :=
  let processedUrls := db.podcasts.map (fun p => p.url)
  videos.filter (fun v => !(processedUrls.contains v.url))

/-- The candidate filter shared by `processMissingVideosAsync` and
`runCronJob`: keep candidates whose `id` is not in the accumulated
`processedIds` set. -/
def missingDedup (processedIds : List String) (videos : List VideoRef) : List VideoRef :=
  videos.filter (fun v => !(processedIds.contains v.id))

/-- The Item-Store half of the dedup key set: `extractYoutubeId` of every
`spotify_url` with this `podcast_name` (null extractions add nothing a
candidate id can match). -/
def storeIdsFor (env : Env) (db : DB) (channelName : String) : List String :=
  (db.podcasts.filter (fun p => p.name = channelName)).filterMap
    (fun p => env.ytId p.url)

/-- The Skip-Ledger half of the dedup key set: every
`skipped_videos.video_id` with this `channel_name`. -/
def skipIdsFor (db : DB) (channelName : String) : List String :=
  (db.skippedVideos.filter (fun s => s.channelName = channelName)).map
    (fun s => s.videoId)

/-- The `processedIds` set built by `POST /api/process-missing` and by
`runCronJob` for one channel: the Item-Store ids, then the Skip-Ledger
ids added on top (`skippedVideos.forEach(s => processedIds.add(...))`). -/
def buildProcessedIds (env : Env) (db : DB) (channelName : String) : List String :=
  storeIdsFor env db channelName ++ skipIdsFor db channelName

/-- The `ON DUPLICATE KEY UPDATE` upsert of the `channels` table run by
`processChannelAsync` after the first successful video:
`channel_url = COALESCE(channel_url, VALUES(channel_url))`,
`total_videos = VALUES(total_videos)` (an empty URL models SQL NULL). -/
def upsertChannelAfterFirst (db : DB) (name url : String) (total : Nat) : DB :=
  if db.channels.any (fun c => c.channelName = name) then
    { db with
      channels := db.channels.map (fun c =>
        if c.channelName = name then
          { c with
            channelUrl := if c.channelUrl = "" then url else c.channelUrl,
            totalVideos := total }
        else c) }
  else { db with channels := db.channels ++ [⟨name, url, total⟩] }

/-- One iteration of the `processChannelAsync` loop body after
`job.currentVideo` was set: call `processVideo` with
`skipExisting=false`, update exactly one counter, push the `results`
entry (never truncated on this path), and after the first success upsert
the `channels` row. -/
def channelStep (env : Env) (language : String) (j : Job) (db : DB)
    (v : VideoRef) : Job × DB :=
  let out := processVideo env db v.url v.id false language
  match out.result with
  | .ok (.skipped r) =>
    ({ j with skipped := j.skipped + 1, results := j.results ++ [.skip v.title r] },
     out.db)
  | .ok (.success pid _ ch summary) =>
    let j' := { j with
      processed := j.processed + 1,
      results := j.results ++ [.success v.title pid (some summary)] }
    let db' :=
      if j'.processed = 1 ∧ ch ≠ "" ∧ j.channelUrl.getD "" ≠ "" then
        upsertChannelAfterFirst out.db ch (j.channelUrl.getD "") j.totalVideosOnYoutube
      else out.db
    (j', db')
  | .error m =>
    ({ j with failed := j.failed + 1, results := j.results ++ [.fail v.title m] },
     out.db)

/-- The `processChannelAsync` loop.  Each iteration contributes two
observable snapshots: the job right after `currentVideo` is set (the
state polls see while the item's external calls are awaited), and the
job after the counters and `results` were updated (the state seen during
the inter-item delay). -/
def channelLoop (env : Env) (language : String) :
    List VideoRef → Job → DB → List Job × Job × DB
  | [], j, db => ([], j, db)
  | v :: vs, j, db =>
    let j1 := { j with currentVideo := some v.title }
    let step := channelStep env language j1 db v
    let rest := channelLoop env language vs step.1 step.2
    (j1 :: step.1 :: rest.1, rest.2.1, rest.2.2)

/-- `processChannelAsync(jobId, channelUrl, maxVideos, language)`.
Returns the trace of observable job snapshots (the terminal snapshot
last), the terminal job, and the final database. -/
def processChannelAsync (env : Env) (db : DB) (channelUrl : String)
    (maxVideos : Nat) (language : String) : List Job × Job × DB :=
  let j0 : Job := { status := "starting", url := channelUrl, language := language }
  let j1 := { j0 with status := "fetching_videos" }
  match getChannelVideos env channelUrl maxVideos with
  | .error m =>
    let jerr := { j1 with status := "error", error := some m }
    ([j0, j1, jerr], jerr, db)
  | .ok allVideos =>
    let newVideos := channelDedup db allVideos
    let skippedCount := allVideos.length - newVideos.length
    let j2 := { j1 with
      total := newVideos.length,
      skipped := skippedCount,
      status := "processing",
      channelUrl := some channelUrl,
      totalVideosOnYoutube := allVideos.length }
    let run := channelLoop env language newVideos j2 db
    let jterm := { run.2.1 with status := "completed", currentVideo := none }
    (([j0, j1, j2] ++ run.1) ++ [jterm], jterm, run.2.2)

/-- `Math.min(maxVideos, 100)` with the handler's `maxVideos = 50`
default, as computed by `POST /api/process` for a channel/playlist
submission. -/
def apiProcessMaxVideos (maxVideos : Option Nat) : Nat :=
  min (maxVideos.getD 50) 100

/-- The channel/playlist branch of `POST /api/process`: start
`processChannelAsync` with the capped `maxVideos`. -/
def apiProcessChannelStart (env : Env) (db : DB) (url : String)
    (maxVideos : Option Nat) (language : String) : List Job × Job × DB :=
  processChannelAsync env db url (apiProcessMaxVideos maxVideos) language

/-- The `results` truncation of `processMissingVideosAsync` and
`retrySkippedVideosAsync`:
`if (job.results.length > 10) job.results = job.results.slice(-10)`. -/
def boundResults (rs : List REntry) : List REntry :=
  if rs.length > 10 then rs.drop (rs.length - 10) else rs

/-- One iteration of the `processMissingVideosAsync` /
`retrySkippedVideosAsync` loop body: like `channelStep` but without the
first-success channel upsert, without a `summary` in success entries,
and with the `results` list truncated to its last 10 entries. -/
def missingStep (env : Env) (language : String) (j : Job) (db : DB)
    (v : VideoRef) : Job × DB :=
  let out := processVideo env db v.url v.id false language
  let j' : Job :=
    match out.result with
    | .ok (.skipped r) =>
      { j with skipped := j.skipped + 1, results := j.results ++ [.skip v.title r] }
    | .ok (.success pid _ _ _) =>
      { j with processed := j.processed + 1, results := j.results ++ [.success v.title pid none] }
    | .error m =>
      { j with failed := j.failed + 1, results := j.results ++ [.fail v.title m] }
  ({ j' with results := boundResults j'.results }, out.db)

/-- The loop shared by `processMissingVideosAsync` and
`retrySkippedVideosAsync` (their bodies are identical), with the same two
snapshots per iteration as `channelLoop`. -/
def missingLoop (env : Env) (language : String) :
    List VideoRef → Job → DB → List Job × Job × DB
  | [], j, db => ([], j, db)
  | v :: vs, j, db =>
    let j1 := { j with currentVideo := some v.title }
    let step := missingStep env language j1 db v
    let rest := missingLoop env language vs step.1 step.2
    (j1 :: step.1 :: rest.1, rest.2.1, rest.2.2)

/-- The channel-stat reconciliation `processMissingVideosAsync` performs
after completion: when `job.channelName` is set and the job caught up
(`total = 0` or `processed+skipped+failed >= total`), `total_videos` of
that channel row is reset to the actually indexed count. -/
def updateChannelStats (db : DB) (j : Job) : DB :=
  match j.channelName with
  | none => db
  | some name =>
    let actual := (db.podcasts.filter (fun p => p.name = name)).length
    let allDone := j.total = 0 ∨ j.processed + j.skipped + j.failed ≥ j.total
    if allDone then
      { db with
        channels := db.channels.map (fun c =>
          if c.channelName = name then { c with totalVideos := actual } else c) }
    else db

/-- `processMissingVideosAsync(jobId, channelUrl, processedIds, language)`
— fetches up to 10000 videos, filters by the prebuilt `processedIds`,
and runs the bounded-results loop.  Returns trace, terminal job and final
database like `processChannelAsync`. -/
def processMissingVideosAsync (env : Env) (db : DB)
    (channelUrl : String) (channelName : Option String)
    (processedIds : List String) (language : String) : List Job × Job × DB :=
  let j0 : Job := { status := "starting", url := channelUrl,
                    language := language, channelName := channelName }
  let j1 := { j0 with status := "fetching_videos" }
  match getChannelVideos env channelUrl 10000 with
  | .error m =>
    let jerr := { j1 with status := "error", error := some m }
    ([j0, j1, jerr], jerr, db)
  | .ok allVideos =>
    let missingVideos := missingDedup processedIds allVideos
    let j2 := { j1 with total := missingVideos.length, status := "processing" }
    let run := missingLoop env language missingVideos j2 db
    let jterm := { run.2.1 with status := "completed", currentVideo := none }
    (([j0, j1, j2] ++ run.1) ++ [jterm], jterm, updateChannelStats run.2.2 jterm)

/-- `retrySkippedVideosAsync(jobId, skippedVideos, language)` — the job
is created with `total = skippedVideos.length` and moves straight to
`processing`; the loop body is the shared bounded-results loop. -/
def retrySkippedVideosAsync (env : Env) (db : DB)
    (channelUrl channelName : String)
    (skippedVideos : List SkipRecord) (language : String) : List Job × Job × DB :=
  let j0 : Job := { status := "starting", url := channelUrl,
                    language := language, channelName := some channelName,
                    total := skippedVideos.length }
  let vids := skippedVideos.map (fun s => VideoRef.mk s.videoId s.videoTitle s.videoUrl)
  let j1 := { j0 with status := "processing" }
  let run := missingLoop env language vids j1 db
  let jterm := { run.2.1 with status := "completed", currentVideo := none }
  (([j0, j1] ++ run.1) ++ [jterm], jterm, run.2.2)

/-- The `results` accumulator of `runCronJob`. -/
structure CronReport where
  channelsChecked : Nat := 0
  newVideosFound : Nat := 0
  videosProcessed : Nat := 0
  videosSkipped : Nat := 0
  videosFailed : Nat := 0
  errors : List (String × String) := []
deriving Repr, DecidableEq

/-- `videosProcessed + videosSkipped + videosFailed` of a sweep report. -/
def CronReport.visitedSum (r : CronReport) : Nat :=
  r.videosProcessed + r.videosSkipped + r.videosFailed

/-- The inner per-video loop of `runCronJob`: `processVideo` with
`skipExisting=false`, a per-video try/catch folding each outcome into the
report counters. -/
def cronVideoLoop (env : Env) : List VideoRef → CronReport → DB → CronReport × DB
  | [], r, db => (r, db)
  | v :: vs, r, db =>
    let out := processVideo env db v.url v.id false "en"
    let r' : CronReport :=
      match out.result with
      | .ok (.skipped _) => { r with videosSkipped := r.videosSkipped + 1 }
      | .ok (.success _ _ _ _) => { r with videosProcessed := r.videosProcessed + 1 }
      | .error _ => { r with videosFailed := r.videosFailed + 1 }
    cronVideoLoop env vs r' out.db

/-- The per-channel body of `runCronJob`, including its try/catch: a
listing failure (the throwing operation inside the guarded block) is
appended to `errors` and the sweep moves on; otherwise the channel is
counted as checked, the dedup filter is applied, and at most
`newVideos.slice(0, 10)` videos are processed. -/
def cronHandleChannel (env : Env) (acc : CronReport × DB) (c : ChannelRec) :
    CronReport × DB :=
  let r := acc.1
  let db := acc.2
  let ids := buildProcessedIds env db c.channelName
  match getChannelVideos env c.channelUrl 50 with
  | .error m => ({ r with errors := r.errors ++ [(c.channelName, m)] }, db)
  | .ok allVideos =>
    let newVideos := missingDedup ids allVideos
    let r1 := { r with
      channelsChecked := r.channelsChecked + 1,
      newVideosFound := r.newVideosFound + newVideos.length }
    if newVideos.length > 0 then cronVideoLoop env (newVideos.take 10) r1 db
    else (r1, db)

/-- The channels `runCronJob` sweeps:
`SELECT DISTINCT channel_name, channel_url FROM channels WHERE
channel_url IS NOT NULL AND channel_url != ''` (an empty URL models
NULL). -/
def cronChannels (db : DB) : List ChannelRec :=
  db.channels.filter (fun c => c.channelUrl ≠ "")

/-- `runCronJob()` — the Scheduled Sweep: fold the per-channel body over
every channel with a known URL. -/
def runCronJob (env : Env) (db : DB) : CronReport × DB :=
  (cronChannels db).foldl (cronHandleChannel env) ({}, db)

/-- Whether `getChannelVideos` succeeds for a channel row under the
50-video cron cap. -/
def cronListingOk (env : Env) (c : ChannelRec) : Bool :=
  match getChannelVideos env c.channelUrl 50 with
  | .ok _ => true
  | .error _ => false

/-- The error entry a channel row contributes to the sweep report, if
its listing fails. -/
def cronErrorOf (env : Env) (c : ChannelRec) : Option (String × String) :=
  match getChannelVideos env c.channelUrl 50 with
  | .ok _ => none
  | .error m => some (c.channelName, m)

/-! ## Concrete scenarios used by counterexamples and witnesses -/

/-- A transcript of exactly 50 characters (passes the
`transcript.length < 50` test). -/
def tlong : String := String.mk (List.replicate 50 'a')

/-- Five candidate videos for the end-to-end scenario. -/
def sv1 : VideoRef := ⟨"id1", "t1", "u1"⟩

def sv2 : VideoRef := ⟨"id2", "t2", "u2"⟩

def sv3 : VideoRef := ⟨"id3", "t3", "u3"⟩

def sv4 : VideoRef := ⟨"id4", "t4", "u4"⟩

def sv5 : VideoRef := ⟨"id5", "t5", "u5"⟩

/-- Item Store already holding the first two candidate URLs. -/
def scenarioDb : DB :=
  ⟨[⟨1, "u1", "C", "e1"⟩, ⟨2, "u2", "C", "e2"⟩], [], [], 3⟩

/-- End-to-end environment: 5 listed candidates; `u3` has no transcript,
`u4` throws a transient error, `u5` succeeds. -/
def scenarioEnv : Env where
  ytInfo := fun _ => ⟨"T", "C"⟩
  subtitles := fun u _ =>
    if u = "u3" then .ok none
    else if u = "u4" then .error "network error"
    else .ok (some tlong)
  gemini := fun _ => .ok "S"
  allChannelVideos := fun _ => .ok [sv1, sv2, sv3, sv4, sv5]
  ytId := fun _ => none

/-- The end-to-end channel job of the scenario. -/
def scenarioRun : List Job × Job × DB :=
  processChannelAsync scenarioEnv scenarioDb "chan" 100 "en"

/-- Eleven candidate videos, none with subtitles available. -/
def elevenVideos : List VideoRef :=
  (List.range 11).map (fun n =>
    ⟨"id" ++ toString n, "t" ++ toString n, "u" ++ toString n⟩)

/-- Environment listing eleven videos whose subtitle download always
throws. -/
def elevenEnv : Env where
  ytInfo := fun _ => ⟨"T", "C"⟩
  subtitles := fun _ _ => .error "x"
  gemini := fun _ => .ok "S"
  allChannelVideos := fun _ => .ok elevenVideos
  ytId := fun _ => none

/-- An empty database. -/
def emptyDb : DB := ⟨[], [], [], 1⟩

/-- Channel run over the eleven-video environment. -/
def elevenRun : List Job × Job × DB :=
  processChannelAsync elevenEnv emptyDb "c11" 100 "en"

/-- A database whose Skip Ledger knows `sv3` (and whose Item Store is
empty). -/
def skipOnlyDb : DB :=
  ⟨[], [⟨"id3", "u3", "C", "t3", "prior_reason"⟩], [], 1⟩

/-! ## Helper lemmas -/

theorem contains_map_url (db : DB) (url : String) :
    (db.podcasts.map (fun p => p.url)).contains url = db.urlInPodcasts url := by
  unfold DB.urlInPodcasts
  induction db.podcasts with
  | nil => rfl
  | cons p ps ih =>
    simp only [List.map_cons, List.contains_cons, List.any_cons, ih]
    by_cases h : p.url = url
    · simp [h]
    · simp [h, Ne.symm h]

theorem channelStep_fields (env : Env) (language : String) (j : Job) (db : DB)
    (v : VideoRef) :
    (channelStep env language j db v).1.status = j.status ∧
    (channelStep env language j db v).1.total = j.total ∧
    (channelStep env language j db v).1.totalVideosOnYoutube = j.totalVideosOnYoutube ∧
    (channelStep env language j db v).1.outcomeSum = j.outcomeSum + 1 := by
  unfold channelStep
  cases h : (processVideo env db v.url v.id false language).result with
  | error m => refine ⟨?_, ?_, ?_, ?_⟩ <;> simp [h, Job.outcomeSum] <;> omega
  | ok r =>
    cases r with
    | skipped rr => refine ⟨?_, ?_, ?_, ?_⟩ <;> simp [h, Job.outcomeSum] <;> omega
    | success a b c d =>
      refine ⟨?_, ?_, ?_, ?_⟩ <;> simp [h, Job.outcomeSum] <;> omega

theorem channelLoop_inv (env : Env) (language : String) (vs : List VideoRef) :
    ∀ (j : Job) (db : DB),
      ((channelLoop env language vs j db).2.1.status = j.status ∧
       (channelLoop env language vs j db).2.1.total = j.total ∧
       (channelLoop env language vs j db).2.1.totalVideosOnYoutube
         = j.totalVideosOnYoutube ∧
       (channelLoop env language vs j db).2.1.outcomeSum
         = j.outcomeSum + vs.length) ∧
      ∀ s ∈ (channelLoop env language vs j db).1,
        s.status = j.status ∧ s.total = j.total ∧
        s.totalVideosOnYoutube = j.totalVideosOnYoutube ∧
        s.outcomeSum ≤ j.outcomeSum + vs.length := by
  induction vs with
  | nil => intro j db; simp [channelLoop]
  | cons v vs ih =>
    intro j db
    have hstep := channelStep_fields env language
      { j with currentVideo := some v.title } db v
    obtain ⟨ihfin, ihmem⟩ :=
      ih (channelStep env language { j with currentVideo := some v.title } db v).1
         (channelStep env language { j with currentVideo := some v.title } db v).2
    have hj1sum : ({ j with currentVideo := some v.title } : Job).outcomeSum
        = j.outcomeSum := rfl
    constructor
    · refine ⟨?_, ?_, ?_, ?_⟩ <;> simp only [channelLoop]
      · rw [ihfin.1, hstep.1]
      · rw [ihfin.2.1, hstep.2.1]
      · rw [ihfin.2.2.1, hstep.2.2.1]
      · rw [ihfin.2.2.2, hstep.2.2.2, hj1sum]
        simp [List.length_cons]
        omega
    · intro s hs
      simp only [channelLoop, List.mem_cons] at hs
      rcases hs with h | h | h
      · subst h
        exact ⟨rfl, rfl, rfl, by rw [hj1sum]; omega⟩
      · subst h
        refine ⟨?_, ?_, ?_, ?_⟩
        · rw [hstep.1]
        · rw [hstep.2.1]
        · rw [hstep.2.2.1]
        · rw [hstep.2.2.2, hj1sum]; simp only [List.length_cons]; omega
      · have hm := ihmem s h
        refine ⟨?_, ?_, ?_, ?_⟩
        · rw [hm.1, hstep.1]
        · rw [hm.2.1, hstep.2.1]
        · rw [hm.2.2.1, hstep.2.2.1]
        · have := hm.2.2.2
          rw [hstep.2.2.2, hj1sum] at this
          simp [List.length_cons]
          omega

theorem trace_stable_after_terminal {tr : List Job}
    (h : ∀ s ∈ tr.dropLast, s.status ≠ "completed" ∧ s.status ≠ "error")
    {i k : Nat} (hi : i < tr.length) (hk : k < tr.length) (hik : i ≤ k)
    (ht : (tr.get ⟨i, hi⟩).status = "completed" ∨
          (tr.get ⟨i, hi⟩).status = "error") :
    tr.get ⟨k, hk⟩ = tr.get ⟨i, hi⟩ := by
  have hlen : tr.dropLast.length = tr.length - 1 := List.length_dropLast tr
  have hi' : i = tr.length - 1 := by
    by_contra hne
    have hlt : i < tr.dropLast.length := by omega
    have hmem : tr.get ⟨i, hi⟩ ∈ tr.dropLast := by
      have hg : tr.dropLast.get ⟨i, hlt⟩ = tr.get ⟨i, hi⟩ := by
        simp [List.get_eq_getElem, List.getElem_dropLast]
      rw [← hg]
      exact List.get_mem _ _ _
    rcases ht with h1 | h1
    · exact (h _ hmem).1 h1
    · exact (h _ hmem).2 h1
  have hki : k = i := by omega
  subst hki
  rfl

theorem boundResults_length_le (rs : List REntry) :
    (boundResults rs).length ≤ 10 := by
  unfold boundResults
  split
  · simp only [List.length_drop]
    omega
  · omega

theorem missingStep_fields (env : Env) (language : String) (j : Job) (db : DB)
    (v : VideoRef) :
    (missingStep env language j db v).1.status = j.status ∧
    (missingStep env language j db v).1.total = j.total ∧
    (missingStep env language j db v).1.outcomeSum = j.outcomeSum + 1 ∧
    (missingStep env language j db v).1.results.length ≤ 10 := by
  unfold missingStep
  cases h : (processVideo env db v.url v.id false language).result with
  | error m =>
    refine ⟨?_, ?_, ?_, ?_⟩ <;>
      simp [h, Job.outcomeSum, boundResults_length_le] <;> omega
  | ok r =>
    cases r with
    | skipped rr =>
      refine ⟨?_, ?_, ?_, ?_⟩ <;>
        simp [h, Job.outcomeSum, boundResults_length_le] <;> omega
    | success a b c d =>
      refine ⟨?_, ?_, ?_, ?_⟩ <;>
        simp [h, Job.outcomeSum, boundResults_length_le] <;> omega

theorem missingLoop_inv (env : Env) (language : String) (vs : List VideoRef) :
    ∀ (j : Job) (db : DB), j.results.length ≤ 10 →
      ((missingLoop env language vs j db).2.1.status = j.status ∧
       (missingLoop env language vs j db).2.1.total = j.total ∧
       (missingLoop env language vs j db).2.1.outcomeSum
         = j.outcomeSum + vs.length ∧
       (missingLoop env language vs j db).2.1.results.length ≤ 10) ∧
      ∀ s ∈ (missingLoop env language vs j db).1,
        s.status = j.status ∧ s.total = j.total ∧
        s.outcomeSum ≤ j.outcomeSum + vs.length ∧
        s.results.length ≤ 10 := by
  induction vs with
  | nil => intro j db hr; constructor
           · exact ⟨rfl, rfl, by simp [missingLoop], by simpa [missingLoop] using hr⟩
           · intro s hs; simp [missingLoop] at hs
  | cons v vs ih =>
    intro j db hr
    have hstep := missingStep_fields env language
      { j with currentVideo := some v.title } db v
    obtain ⟨ihfin, ihmem⟩ :=
      ih (missingStep env language { j with currentVideo := some v.title } db v).1
         (missingStep env language { j with currentVideo := some v.title } db v).2
         hstep.2.2.2
    have hj1sum : ({ j with currentVideo := some v.title } : Job).outcomeSum
        = j.outcomeSum := rfl
    constructor
    · refine ⟨?_, ?_, ?_, ?_⟩ <;> simp only [missingLoop]
      · rw [ihfin.1, hstep.1]
      · rw [ihfin.2.1, hstep.2.1]
      · rw [ihfin.2.2.1, hstep.2.2.1, hj1sum]
        simp only [List.length_cons]
        omega
      · exact ihfin.2.2.2
    · intro s hs
      simp only [missingLoop, List.mem_cons] at hs
      rcases hs with h | h | h
      · subst h
        exact ⟨rfl, rfl, by rw [hj1sum]; omega, hr⟩
      · subst h
        refine ⟨?_, ?_, ?_, ?_⟩
        · rw [hstep.1]
        · rw [hstep.2.1]
        · rw [hstep.2.2.1, hj1sum]; simp only [List.length_cons]; omega
        · exact hstep.2.2.2
      · have hm := ihmem s h
        refine ⟨?_, ?_, ?_, ?_⟩
        · rw [hm.1, hstep.1]
        · rw [hm.2.1, hstep.2.1]
        · have := hm.2.2.1
          rw [hstep.2.2.1, hj1sum] at this
          simp only [List.length_cons]
          omega
        · exact hm.2.2.2

theorem processChannelAsync_dropLast_nonterminal (env : Env) (db : DB)
    (url : String) (mv : Nat) (lang : String) :
    ∀ s ∈ (processChannelAsync env db url mv lang).1.dropLast,
      s.status ≠ "completed" ∧ s.status ≠ "error" := by
  unfold processChannelAsync
  cases hfetch : getChannelVideos env url mv with
  | error m =>
    simp only [hfetch]
    intro s hs
    simp [List.dropLast] at hs
    rcases hs with h | h <;> subst h <;> exact ⟨by simp, by simp⟩
  | ok allVideos =>
    simp only [hfetch, List.dropLast_concat]
    intro s hs
    rcases List.mem_append.mp hs with h | h
    · simp [List.mem_cons] at h
      rcases h with h | h | h <;> subst h <;> exact ⟨by simp, by simp⟩
    · have := ((channelLoop_inv env lang (channelDedup db allVideos) _ db).2 s h).1
      rw [this]
      exact ⟨by simp, by simp⟩

theorem processMissingVideosAsync_dropLast_nonterminal (env : Env) (db : DB)
    (url : String) (name : Option String) (ids : List String) (lang : String) :
    ∀ s ∈ (processMissingVideosAsync env db url name ids lang).1.dropLast,
      s.status ≠ "completed" ∧ s.status ≠ "error" := by
  unfold processMissingVideosAsync
  cases hfetch : getChannelVideos env url 10000 with
  | error m =>
    simp only [hfetch]
    intro s hs
    simp [List.dropLast] at hs
    rcases hs with h | h <;> subst h <;> exact ⟨by simp, by simp⟩
  | ok allVideos =>
    simp only [hfetch, List.dropLast_concat]
    intro s hs
    rcases List.mem_append.mp hs with h | h
    · simp [List.mem_cons] at h
      rcases h with h | h | h <;> subst h <;> exact ⟨by simp, by simp⟩
    · have := ((missingLoop_inv env lang (missingDedup ids allVideos) _ db
        (by simp)).2 s h).1
      rw [this]
      exact ⟨by simp, by simp⟩

theorem retrySkippedVideosAsync_dropLast_nonterminal (env : Env) (db : DB)
    (url name : String) (svs : List SkipRecord) (lang : String) :
    ∀ s ∈ (retrySkippedVideosAsync env db url name svs lang).1.dropLast,
      s.status ≠ "completed" ∧ s.status ≠ "error" := by
  unfold retrySkippedVideosAsync
  simp only [List.dropLast_concat]
  intro s hs
  rcases List.mem_append.mp hs with h | h
  · simp [List.mem_cons] at h
    rcases h with h | h <;> subst h <;> exact ⟨by simp, by simp⟩
  · have := ((missingLoop_inv env lang
      (svs.map (fun s => VideoRef.mk s.videoId s.videoTitle s.videoUrl)) _ db
      (by simp)).2 s h).1
    rw [this]
    exact ⟨by simp, by simp⟩

/-- Environment whose channel listing always fails. -/
def errEnv : Env where
  ytInfo := fun _ => ⟨"T", "C"⟩
  subtitles := fun _ _ => .error "x"
  gemini := fun _ => .ok "S"
  allChannelVideos := fun _ => .error "down"
  ytId := fun _ => none

/-- One hundred candidate videos, none with subtitles available. -/
def hundredVideos : List VideoRef :=
  (List.range 100).map (fun n =>
    ⟨"id" ++ toString n, "t" ++ toString n, "u" ++ toString n⟩)

/-- Environment listing one hundred videos whose subtitle download always
throws. -/
def hundredEnv : Env where
  ytInfo := fun _ => ⟨"T", "C"⟩
  subtitles := fun _ _ => .error "x"
  gemini := fun _ => .ok "S"
  allChannelVideos := fun _ => .ok hundredVideos
  ytId := fun _ => none

/-- Channel job submitted through `POST /api/process` with
`maxVideos = 100` over the hundred-video environment. -/
def hundredRun : List Job × Job × DB :=
  apiProcessChannelStart hundredEnv emptyDb "c100" (some 100) "en"

theorem channelDedup_length_le (db : DB) (vs : List VideoRef) :
    (channelDedup db vs).length ≤ vs.length := by
  unfold channelDedup
  exact List.length_filter_le _ _

theorem processChannelAsync_outcome_bound (env : Env) (db : DB)
    (url : String) (mv : Nat) (lang : String) :
    ∀ s ∈ (processChannelAsync env db url mv lang).1,
      s.outcomeSum ≤ s.totalVideosOnYoutube ∧ s.total ≤ s.totalVideosOnYoutube := by
  unfold processChannelAsync
  cases hfetch : getChannelVideos env url mv with
  | error m =>
    simp only [hfetch]
    intro s hs
    simp [List.mem_cons] at hs
    rcases hs with h | h | h <;> subst h <;> simp [Job.outcomeSum]
  | ok allVideos =>
    simp only [hfetch]
    intro s hs
    have hLA : (channelDedup db allVideos).length ≤ allVideos.length :=
      channelDedup_length_le db allVideos
    rcases List.mem_append.mp hs with h | h
    · rcases List.mem_append.mp h with h | h
      · simp [List.mem_cons] at h
        rcases h with h | h | h <;> subst h <;> simp [Job.outcomeSum] <;> omega
      · have hm := (channelLoop_inv env lang (channelDedup db allVideos) _ db).2 s h
        have h2 := hm.2.1
        have h3 := hm.2.2.1
        have h4 := hm.2.2.2
        simp [Job.outcomeSum] at h2 h3 h4 ⊢
        omega
    · simp [List.mem_cons] at h
      subst h
      have hfin := (channelLoop_inv env lang (channelDedup db allVideos)
        { status := "processing", url := url, language := lang, channelName := none,
          total := (channelDedup db allVideos).length, processed := 0,
          skipped := allVideos.length - (channelDedup db allVideos).length,
          failed := 0, currentVideo := none, results := [], error := none,
          channelUrl := some url, totalVideosOnYoutube := allVideos.length } db).1
      have h2 := hfin.2.1
      have h3 := hfin.2.2.1
      have h4 := hfin.2.2.2
      simp [Job.outcomeSum] at h2 h3 h4 ⊢
      omega

theorem processMissingVideosAsync_outcome_bound (env : Env) (db : DB)
    (url : String) (name : Option String) (ids : List String) (lang : String) :
    ∀ s ∈ (processMissingVideosAsync env db url name ids lang).1,
      s.outcomeSum ≤ s.total := by
  unfold processMissingVideosAsync
  cases hfetch : getChannelVideos env url 10000 with
  | error m =>
    simp only [hfetch]
    intro s hs
    simp [List.mem_cons] at hs
    rcases hs with h | h | h <;> subst h <;> simp [Job.outcomeSum]
  | ok allVideos =>
    simp only [hfetch]
    intro s hs
    rcases List.mem_append.mp hs with h | h
    · rcases List.mem_append.mp h with h | h
      · simp [List.mem_cons] at h
        rcases h with h | h | h <;> subst h <;> simp [Job.outcomeSum]
      · have hm := (missingLoop_inv env lang (missingDedup ids allVideos) _ db
          (by simp)).2 s h
        have h2 := hm.2.1
        have h3 := hm.2.2.1
        simp [Job.outcomeSum] at h2 h3 ⊢
        omega
    · simp [List.mem_cons] at h
      subst h
      have hfin := (missingLoop_inv env lang (missingDedup ids allVideos)
        { status := "processing", url := url, language := lang, channelName := name,
          total := (missingDedup ids allVideos).length, processed := 0,
          skipped := 0, failed := 0, currentVideo := none, results := [],
          error := none, channelUrl := none, totalVideosOnYoutube := 0 } db
        (by simp)).1
      have h2 := hfin.2.1
      have h3 := hfin.2.2.1
      simp [Job.outcomeSum] at h2 h3 ⊢
      omega

theorem retrySkippedVideosAsync_outcome_bound (env : Env) (db : DB)
    (url name : String) (svs : List SkipRecord) (lang : String) :
    ∀ s ∈ (retrySkippedVideosAsync env db url name svs lang).1,
      s.outcomeSum ≤ s.total := by
  unfold retrySkippedVideosAsync
  intro s hs
  rcases List.mem_append.mp hs with h | h
  · rcases List.mem_append.mp h with h | h
    · simp [List.mem_cons] at h
      rcases h with h | h <;> subst h <;> simp [Job.outcomeSum]
    · have hm := (missingLoop_inv env lang
        (svs.map (fun s => VideoRef.mk s.videoId s.videoTitle s.videoUrl)) _ db
        (by simp)).2 s h
      have h2 := hm.2.1
      have h3 := hm.2.2.1
      simp [Job.outcomeSum, List.length_map] at h2 h3 ⊢
      omega
  · simp [List.mem_cons] at h
    subst h
    have hfin := (missingLoop_inv env lang
      (svs.map (fun s => VideoRef.mk s.videoId s.videoTitle s.videoUrl))
      { status := "processing", url := url, language := lang,
        channelName := some name, total := svs.length, processed := 0,
        skipped := 0, failed := 0, currentVideo := none, results := [],
        error := none, channelUrl := none, totalVideosOnYoutube := 0 } db
      (by simp)).1
    have h2 := hfin.2.1
    have h3 := hfin.2.2.1
    simp [Job.outcomeSum, List.length_map] at h2 h3 ⊢
    omega

theorem processMissingVideosAsync_results_bound (env : Env) (db : DB)
    (url : String) (name : Option String) (ids : List String) (lang : String) :
    (∀ s ∈ (processMissingVideosAsync env db url name ids lang).1,
      s.results.length ≤ 10) ∧
    (processMissingVideosAsync env db url name ids lang).2.1.outcomeSum
      = (processMissingVideosAsync env db url name ids lang).2.1.total := by
  unfold processMissingVideosAsync
  cases hfetch : getChannelVideos env url 10000 with
  | error m =>
    simp only [hfetch]
    constructor
    · intro s hs
      simp [List.mem_cons] at hs
      rcases hs with h | h | h <;> subst h <;> simp
    · simp [Job.outcomeSum]
  | ok allVideos =>
    simp only [hfetch]
    have hfin := (missingLoop_inv env lang (missingDedup ids allVideos)
      { status := "processing", url := url, language := lang, channelName := name,
        total := (missingDedup ids allVideos).length, processed := 0,
        skipped := 0, failed := 0, currentVideo := none, results := [],
        error := none, channelUrl := none, totalVideosOnYoutube := 0 } db
      (by simp)).1
    constructor
    · intro s hs
      rcases List.mem_append.mp hs with h | h
      · rcases List.mem_append.mp h with h | h
        · simp [List.mem_cons] at h
          rcases h with h | h | h <;> subst h <;> simp
        · exact ((missingLoop_inv env lang (missingDedup ids allVideos) _ db
            (by simp)).2 s h).2.2.2
      · simp [List.mem_cons] at h
        subst h
        exact hfin.2.2.2
    · have h2 := hfin.2.1
      have h3 := hfin.2.2.1
      simp [Job.outcomeSum] at h2 h3 ⊢
      omega

theorem retrySkippedVideosAsync_results_bound (env : Env) (db : DB)
    (url name : String) (svs : List SkipRecord) (lang : String) :
    (∀ s ∈ (retrySkippedVideosAsync env db url name svs lang).1,
      s.results.length ≤ 10) ∧
    (retrySkippedVideosAsync env db url name svs lang).2.1.outcomeSum
      = (retrySkippedVideosAsync env db url name svs lang).2.1.total := by
  unfold retrySkippedVideosAsync
  have hfin := (missingLoop_inv env lang
    (svs.map (fun s => VideoRef.mk s.videoId s.videoTitle s.videoUrl))
    { status := "processing", url := url, language := lang,
      channelName := some name, total := svs.length, processed := 0,
      skipped := 0, failed := 0, currentVideo := none, results := [],
      error := none, channelUrl := none, totalVideosOnYoutube := 0 } db
    (by simp)).1
  constructor
  · intro s hs
    rcases List.mem_append.mp hs with h | h
    · rcases List.mem_append.mp h with h | h
      · simp [List.mem_cons] at h
        rcases h with h | h <;> subst h <;> simp
      · exact ((missingLoop_inv env lang
          (svs.map (fun s => VideoRef.mk s.videoId s.videoTitle s.videoUrl)) _ db
          (by simp)).2 s h).2.2.2
    · simp [List.mem_cons] at h
      subst h
      exact hfin.2.2.2
  · have h2 := hfin.2.1
    have h3 := hfin.2.2.1
    simp [Job.outcomeSum, List.length_map] at h2 h3 ⊢
    omega

theorem processVideo_false_noSubtitles (env : Env) (db : DB)
    (url vid lang : String) (t : Option String)
    (hs : env.subtitles url lang = .ok t) (hb : badTranscript t = true) :
    processVideo env db url vid false lang =
      { result := .ok (.skipped "no_subtitles"),
        db := insertIgnoreSkip db
          ⟨vid, url, orUnknown (env.ytInfo url).channel,
           orUnknown (env.ytInfo url).title, "no_subtitles"⟩,
        calledSubtitles := true } := by
  unfold processVideo
  simp [hs, hb]

theorem processVideo_false_throws (env : Env) (db : DB)
    (url vid lang m : String) (hs : env.subtitles url lang = .error m) :
    processVideo env db url vid false lang =
      { result := .error m, db := db, calledSubtitles := true } := by
  unfold processVideo
  simp [hs]

theorem processVideo_false_success (env : Env) (db : DB)
    (url vid lang t sm : String)
    (hs : env.subtitles url lang = .ok (some t)) (ht : ¬ t.length < 50)
    (hg : env.gemini url = .ok sm) :
    processVideo env db url vid false lang =
      { result := .ok (.success db.nextId (env.ytInfo url).title
          (env.ytInfo url).channel sm),
        db := (insertPodcast db url (orUnknown (env.ytInfo url).channel)
          (orUnknown (env.ytInfo url).title)).2,
        calledSubtitles := true } := by
  unfold processVideo
  simp [hs, hg, badTranscript, ht, insertPodcast]

theorem processVideo_pre_none (env : Env) (db : DB) (url vid lang : String)
    (sk : Bool) (hstore : db.urlInPodcasts url = false)
    (hskip : db.findSkip vid = none) :
    processVideo env db url vid sk lang
      = processVideo env db url vid false lang := by
  cases sk
  · rfl
  · unfold processVideo
    simp [hstore, hskip]

theorem processVideo_true_skipHit (env : Env) (db : DB)
    (url vid lang : String) (r : SkipRecord)
    (hstore : db.urlInPodcasts url = false)
    (hskip : db.findSkip vid = some r) :
    processVideo env db url vid true lang =
      { result := .ok (.skipped r.skipReason), db := db,
        calledSubtitles := false } := by
  unfold processVideo
  simp [hstore, hskip]

theorem processVideo_false_calls_subtitles (env : Env) (db : DB)
    (url vid lang : String) :
    (processVideo env db url vid false lang).calledSubtitles = true := by
  unfold processVideo
  cases h : env.subtitles url lang with
  | error m => simp [h]
  | ok t =>
    by_cases hb : badTranscript t = true
    · simp [h, hb]
    · cases hg : env.gemini url with
      | error m2 => simp [h, hb, hg]
      | ok sm => simp [h, hb, hg]

theorem processVideo_calls_subtitles (env : Env) (db : DB)
    (url vid lang : String) (sk : Bool)
    (hstore : db.urlInPodcasts url = false)
    (hskip : db.findSkip vid = none) :
    (processVideo env db url vid sk lang).calledSubtitles = true := by
  rw [processVideo_pre_none env db url vid lang sk hstore hskip]
  unfold processVideo
  cases h : env.subtitles url lang with
  | error m => simp [h]
  | ok t =>
    by_cases hb : badTranscript t = true
    · simp [h, hb]
    · cases hg : env.gemini url with
      | error m2 => simp [h, hb, hg]
      | ok sm => simp [h, hb, hg]

theorem urlInPodcasts_insertIgnoreSkip (db : DB) (r : SkipRecord)
    (url : String) :
    (insertIgnoreSkip db r).urlInPodcasts url = db.urlInPodcasts url := by
  unfold insertIgnoreSkip DB.urlInPodcasts
  split <;> rfl

theorem length_filter_not {α : Type} (p : α → Bool) (l : List α) :
    (l.filter (fun a => !(p a))).length = l.length - (l.filter p).length := by
  induction l with
  | nil => rfl
  | cons a as ih =>
    have hle := List.length_filter_le p as
    cases h : p a <;> simp [List.filter_cons, h, ih] <;> omega

theorem find?_append_single {α : Type} (p : α → Bool) (l : List α) (a : α)
    (h : l.find? p = none) (hp : p a = true) :
    (l ++ [a]).find? p = some a := by
  induction l with
  | nil => simp [List.find?, hp]
  | cons b bs ih =>
    have hpb : p b = false := by
      have := List.find?_eq_none.mp h b (by simp)
      simpa using this
    have hbs : bs.find? p = none := by
      rw [List.find?_eq_none] at h ⊢
      intro x hx
      exact h x (by simp [hx])
    simp only [List.cons_append, List.find?, hpb]
    exact ih hbs

theorem findSkip_insertIgnoreSkip_self (db : DB) (r : SkipRecord)
    (h : db.findSkip r.videoId = none) :
    (insertIgnoreSkip db r).findSkip r.videoId = some r := by
  unfold insertIgnoreSkip
  have hany : db.skippedVideos.any (fun s => s.videoId = r.videoId) = false := by
    rw [List.any_eq_false]
    intro x hx
    have := List.find?_eq_none.mp h x hx
    simpa using this
  rw [if_neg (by simp [hany])]
  unfold DB.findSkip at h ⊢
  exact find?_append_single _ _ _ h (by simp)

theorem cronVideoLoop_report (env : Env) (vs : List VideoRef) :
    ∀ (r : CronReport) (db : DB),
      (cronVideoLoop env vs r db).1.visitedSum = r.visitedSum + vs.length ∧
      (cronVideoLoop env vs r db).1.errors = r.errors ∧
      (cronVideoLoop env vs r db).1.channelsChecked = r.channelsChecked ∧
      (cronVideoLoop env vs r db).1.newVideosFound = r.newVideosFound := by
  induction vs with
  | nil => intro r db; exact ⟨by simp [cronVideoLoop], rfl, rfl, rfl⟩
  | cons v vs ih =>
    intro r db
    unfold cronVideoLoop
    cases h : (processVideo env db v.url v.id false "en").result with
    | error m =>
      simp only [h]
      obtain ⟨i1, i2, i3, i4⟩ := ih _ _
      refine ⟨?_, by rw [i2], by rw [i3], by rw [i4]⟩
      rw [i1]
      simp [CronReport.visitedSum]
      omega
    | ok pr =>
      cases pr with
      | skipped rr =>
        simp only [h]
        obtain ⟨i1, i2, i3, i4⟩ := ih _ _
        refine ⟨?_, by rw [i2], by rw [i3], by rw [i4]⟩
        rw [i1]
        simp [CronReport.visitedSum]
        omega
      | success a b c d =>
        simp only [h]
        obtain ⟨i1, i2, i3, i4⟩ := ih _ _
        refine ⟨?_, by rw [i2], by rw [i3], by rw [i4]⟩
        rw [i1]
        simp [CronReport.visitedSum]
        omega

theorem cronHandleChannel_report (env : Env) (r : CronReport) (db : DB)
    (c : ChannelRec) :
    (cronHandleChannel env (r, db) c).1.visitedSum ≤ r.visitedSum + 10 ∧
    (cronHandleChannel env (r, db) c).1.errors
      = r.errors ++ (match cronErrorOf env c with
        | some e => [e]
        | none => []) ∧
    (cronHandleChannel env (r, db) c).1.channelsChecked
      = r.channelsChecked + (if cronListingOk env c then 1 else 0) := by
  unfold cronHandleChannel cronErrorOf cronListingOk
  cases h : getChannelVideos env c.channelUrl 50 with
  | error m => simp [h, CronReport.visitedSum]
  | ok allVideos =>
    simp only [h]
    by_cases hnv :
      0 < (missingDedup (buildProcessedIds env db c.channelName) allVideos).length
    · rw [if_pos hnv]
      obtain ⟨l1, l2, l3, _⟩ := cronVideoLoop_report env
        ((missingDedup (buildProcessedIds env db c.channelName) allVideos).take 10)
        { r with
          channelsChecked := r.channelsChecked + 1,
          newVideosFound := r.newVideosFound
            + (missingDedup (buildProcessedIds env db c.channelName) allVideos).length }
        db
      have htake :
          ((missingDedup (buildProcessedIds env db c.channelName) allVideos).take
            10).length ≤ 10 := by
        simp [List.length_take]
      refine ⟨?_, ?_, ?_⟩
      · rw [l1]
        simp only [CronReport.visitedSum] at htake ⊢
        omega
      · simp [l2]
      · simp [l3]
    · rw [if_neg hnv]
      simp [CronReport.visitedSum]

theorem runCron_fold (env : Env) (cs : List ChannelRec) :
    ∀ (r : CronReport) (db : DB),
      ((cs.foldl (cronHandleChannel env) (r, db)).1.errors
        = r.errors ++ cs.filterMap (cronErrorOf env)) ∧
      ((cs.foldl (cronHandleChannel env) (r, db)).1.channelsChecked
        = r.channelsChecked + (cs.filter (cronListingOk env)).length) := by
  induction cs with
  | nil => intro r db; simp
  | cons c cs ih =>
    intro r db
    simp only [List.foldl_cons]
    obtain ⟨hc1, hc2, hc3⟩ := cronHandleChannel_report env r db c
    obtain ⟨i1, i2⟩ :=
      ih (cronHandleChannel env (r, db) c).1 (cronHandleChannel env (r, db) c).2
    constructor
    · rw [i1, hc2]
      cases hgc : cronErrorOf env c <;>
        simp [List.filterMap_cons, hgc, List.append_assoc]
    · rw [i2, hc3]
      cases hok : cronListingOk env c <;>
        simp [List.filter_cons, hok] <;> omega

theorem getChannelVideos_length_le (env : Env) (url : String) (mv : Nat)
    (l : List VideoRef) (h : getChannelVideos env url mv = .ok l) :
    l.length ≤ mv := by
  unfold getChannelVideos at h
  cases he : env.allChannelVideos url with
  | error m =>
    rw [he] at h
    simp at h
  | ok vs =>
    rw [he] at h
    simp at h
    subst h
    simp [List.length_take]

theorem processChannelAsync_tvy_le (env : Env) (db : DB)
    (url : String) (mv : Nat) (lang : String) :
    ∀ s ∈ (processChannelAsync env db url mv lang).1,
      s.totalVideosOnYoutube ≤ mv := by
  unfold processChannelAsync
  cases hfetch : getChannelVideos env url mv with
  | error m =>
    simp only [hfetch]
    intro s hs
    simp [List.mem_cons] at hs
    rcases hs with h | h | h <;> subst h <;> simp
  | ok allVideos =>
    simp only [hfetch]
    have hA : allVideos.length ≤ mv :=
      getChannelVideos_length_le env url mv allVideos hfetch
    intro s hs
    rcases List.mem_append.mp hs with h | h
    · rcases List.mem_append.mp h with h | h
      · simp [List.mem_cons] at h
        rcases h with h | h | h <;> subst h <;> simpa using hA
      · have hm := (channelLoop_inv env lang (channelDedup db allVideos) _ db).2 s h
        have h3 := hm.2.2.1
        simp at h3
        omega
    · simp [List.mem_cons] at h
      subst h
      have hfin := (channelLoop_inv env lang (channelDedup db allVideos)
        { status := "processing", url := url, language := lang, channelName := none,
          total := (channelDedup db allVideos).length, processed := 0,
          skipped := allVideos.length - (channelDedup db allVideos).length,
          failed := 0, currentVideo := none, results := [], error := none,
          channelUrl := some url, totalVideosOnYoutube := allVideos.length } db).1
      have h3 := hfin.2.2.1
      simp at h3
      simp [h3]
      omega

/-! ## Claim theorems -/

/-- C9 (confirmed): one scheduled-sweep run (`runCronJob`) visits at most
10 items per source (each per-channel step adds at most 10 to
`videosProcessed + videosSkipped + videosFailed`), and a failure while
handling one source is appended to the report's `errors` while the sweep
still checks every other source: the final report's `errors` are exactly
the failing channels' entries and `channelsChecked` counts exactly the
channels whose listing succeeded, regardless of failures in between. -/
theorem cron_sweep_caps_and_error_isolation :
    (∀ (env : Env) (r : CronReport) (db : DB) (c : ChannelRec),
      (cronHandleChannel env (r, db) c).1.visitedSum ≤ r.visitedSum + 10) ∧
    (∀ (env : Env) (db : DB),
      (runCronJob env db).1.errors
        = (cronChannels db).filterMap (cronErrorOf env) ∧
      (runCronJob env db).1.channelsChecked
        = ((cronChannels db).filter (cronListingOk env)).length) := by
  constructor
  · intro env r db c
    exact (cronHandleChannel_report env r db c).1
  · intro env db
    obtain ⟨h1, h2⟩ := runCron_fold env (cronChannels db) {} db
    unfold runCronJob
    constructor
    · rw [h1]
      simp
    · rw [h2]
      simp

/-- C1 (corrected, counterexample): in the end-to-end scenario — 5
candidates of which 2 are already in the Item Store, 1 has no
transcript, 1 throws a transient error and 1 succeeds — the final job
state is `completed` with `total = 3`, `processed = 1`, `failed = 1`,
but `skipped = 3`, not `1` as claimed: the 2 pre-known candidates are
counted into `skipped` in addition to the no-transcript skip. -/
theorem five_candidate_scenario_counterexample :
    (processChannelAsync scenarioEnv scenarioDb "chan" 100 "en").2.1.status
      = "completed" ∧
    (processChannelAsync scenarioEnv scenarioDb "chan" 100 "en").2.1.total = 3 ∧
    (processChannelAsync scenarioEnv scenarioDb "chan" 100 "en").2.1.processed = 1 ∧
    (processChannelAsync scenarioEnv scenarioDb "chan" 100 "en").2.1.failed = 1 ∧
    (processChannelAsync scenarioEnv scenarioDb "chan" 100 "en").2.1.skipped = 3 ∧
    ¬ (processChannelAsync scenarioEnv scenarioDb "chan" 100 "en").2.1.skipped = 1 := by
  refine ⟨rfl, rfl, rfl, rfl, rfl, by decide⟩

/-- C1 (amended): for every channel-ingestion job whose listed candidate
list has 5 items of which the first 2 are already in the Item Store, one
has no transcript, one throws a transient error and one succeeds, the
final job state is `completed` with `total = 3`, `processed = 1`,
`skipped = 3` (the 2 pre-known candidates plus the no-transcript skip)
and `failed = 1`. -/
theorem five_candidate_scenario_final_state (env : Env) (db : DB)
    (u lang m t sm : String) (mv : Nat) (v1 v2 v3 v4 v5 : VideoRef)
    (hlist : getChannelVideos env u mv = .ok [v1, v2, v3, v4, v5])
    (h1 : db.urlInPodcasts v1.url = true)
    (h2 : db.urlInPodcasts v2.url = true)
    (h3 : db.urlInPodcasts v3.url = false)
    (h4 : db.urlInPodcasts v4.url = false)
    (h5 : db.urlInPodcasts v5.url = false)
    (hs3 : env.subtitles v3.url lang = .ok none)
    (hs4 : env.subtitles v4.url lang = .error m)
    (hs5 : env.subtitles v5.url lang = .ok (some t))
    (ht : 50 ≤ t.length)
    (hg : env.gemini v5.url = .ok sm) :
    (processChannelAsync env db u mv lang).2.1.status = "completed" ∧
    (processChannelAsync env db u mv lang).2.1.total = 3 ∧
    (processChannelAsync env db u mv lang).2.1.processed = 1 ∧
    (processChannelAsync env db u mv lang).2.1.skipped = 3 ∧
    (processChannelAsync env db u mv lang).2.1.failed = 1 := by
  have hded : channelDedup db [v1, v2, v3, v4, v5] = [v3, v4, v5] := by
    unfold channelDedup
    simp only [contains_map_url]
    simp [List.filter, h1, h2, h3, h4, h5]
  have e3 : ∀ d : DB, processVideo env d v3.url v3.id false lang =
      { result := .ok (.skipped "no_subtitles"),
        db := insertIgnoreSkip d
          ⟨v3.id, v3.url, orUnknown (env.ytInfo v3.url).channel,
           orUnknown (env.ytInfo v3.url).title, "no_subtitles"⟩,
        calledSubtitles := true } :=
    fun d => processVideo_false_noSubtitles env d v3.url v3.id lang none hs3 rfl
  have e4 : ∀ d : DB, processVideo env d v4.url v4.id false lang =
      { result := .error m, db := d, calledSubtitles := true } :=
    fun d => processVideo_false_throws env d v4.url v4.id lang m hs4
  have e5 : ∀ d : DB, processVideo env d v5.url v5.id false lang =
      { result := .ok (.success d.nextId (env.ytInfo v5.url).title
          (env.ytInfo v5.url).channel sm),
        db := (insertPodcast d v5.url (orUnknown (env.ytInfo v5.url).channel)
          (orUnknown (env.ytInfo v5.url).title)).2,
        calledSubtitles := true } :=
    fun d => processVideo_false_success env d v5.url v5.id lang t sm hs5
      (by omega) hg
  unfold processChannelAsync
  rw [hlist]
  simp only [hded, channelLoop, channelStep, e3, e4, e5]
  refine ⟨?_, ?_, ?_, ?_, ?_⟩ <;> simp

/-- C4 (corrected, counterexample): a call to the Item Pipeline with
`skipExisting = false` on an item whose SkipRecord exists (and which the
canonical-URL check therefore never caught) does NOT return the recorded
skip: it invokes the external subtitle fetch and here even ingests the
item.  The SkipRecord check sits inside `if (skipExisting)`, so it is
bypassed on every orchestrator call (`skipExisting=false`). -/
theorem skip_record_not_consulted_counterexample :
    skipOnlyDb.findSkip "id3"
      = some ⟨"id3", "u3", "C", "t3", "prior_reason"⟩ ∧
    (processVideo scenarioEnv skipOnlyDb "u5" "id3" false "en").calledSubtitles
      = true ∧
    (processVideo scenarioEnv skipOnlyDb "u5" "id3" false "en").result
      = .ok (.success 1 "T" "C" "S") := by
  refine ⟨rfl, rfl, rfl⟩

/-- C4 (amended): only when the pipeline is called with
`skipExisting = true` and the canonical URL is not in the Item Store does
an existing SkipRecord make it return `skipped` with the previously
recorded reason immediately, with no external call and no state change;
calls with `skipExisting = false` bypass the SkipRecord check entirely. -/
theorem skip_record_short_circuits_when_checked (env : Env) (db : DB)
    (url vid lang : String) (r : SkipRecord)
    (hstore : db.urlInPodcasts url = false)
    (hskip : db.findSkip vid = some r) :
    processVideo env db url vid true lang =
      { result := .ok (.skipped r.skipReason), db := db,
        calledSubtitles := false } ∧
    (processVideo env db url vid false lang).calledSubtitles = true := by
  constructor
  · exact processVideo_true_skipHit env db url vid lang r hstore hskip
  · unfold processVideo
    cases h : env.subtitles url lang with
    | error m => simp [h]
    | ok t =>
      by_cases hb : badTranscript t = true
      · simp [h, hb]
      · cases hg : env.gemini url with
        | error m2 => simp [h, hb, hg]
        | ok sm => simp [h, hb, hg]

/-- Witness for the amended C4, applied at the recorded scenario skip. -/
theorem skip_record_short_circuits_when_checked_witness :
    processVideo scenarioEnv skipOnlyDb "u3" "id3" true "en" =
      { result := .ok (.skipped "prior_reason"), db := skipOnlyDb,
        calledSubtitles := false } :=
  (skip_record_short_circuits_when_checked scenarioEnv skipOnlyDb "u3" "id3"
    "en" ⟨"id3", "u3", "C", "t3", "prior_reason"⟩ rfl rfl).1

/-- C5 (corrected, counterexample): after a first pipeline run on an
item with a null transcript has written the `no_subtitles` SkipRecord, a
second run on the very same item in the orchestrators' mode
(`skipExisting = false` — the mode every batch runner uses, and
reachable for skip-recorded items because the channel dedup does not
consult the Skip Ledger) invokes the transcript fetch again.  This
refutes the unqualified "a second run on the same item returns `skipped`
without calling the transcript fetch again". -/
theorem no_transcript_second_run_refetches_counterexample :
    (processVideo scenarioEnv emptyDb "u3" "id3" false "en").result
      = .ok (.skipped "no_subtitles") ∧
    (processVideo scenarioEnv emptyDb "u3" "id3" false "en").db.findSkip "id3"
      = some ⟨"id3", "u3", "C", "T", "no_subtitles"⟩ ∧
    (processVideo scenarioEnv
        (processVideo scenarioEnv emptyDb "u3" "id3" false "en").db
        "u3" "id3" false "en").calledSubtitles = true := by
  refine ⟨rfl, rfl, rfl⟩

/-- C5 (amended): if the transcript fetch returns null or a too-short
transcript, the pipeline writes a SkipRecord with the no-transcript
reason (`no_subtitles` in the code) and returns `skipped`; a second run
on the same item with `skipIfKnown = true` — under ANY environment —
returns `skipped` without calling the transcript fetch, while a second
run with `skipIfKnown = false` calls the fetch again despite the record;
if the transcript fetch throws, the pipeline propagates the failure,
writes nothing, and a second run calls the fetch again. -/
theorem no_transcript_skip_persists_and_failures_retry
    (env envE : Env) (db : DB) (url vid lang : String)
    (t : Option String) (m : String) (sk1 : Bool)
    (hstore : db.urlInPodcasts url = false)
    (hskip : db.findSkip vid = none)
    (hs : env.subtitles url lang = .ok t)
    (hb : badTranscript t = true)
    (hsE : envE.subtitles url lang = .error m) :
    ((processVideo env db url vid sk1 lang).result
        = .ok (.skipped "no_subtitles") ∧
     (processVideo env db url vid sk1 lang).db.findSkip vid
        = some ⟨vid, url, orUnknown (env.ytInfo url).channel,
                orUnknown (env.ytInfo url).title, "no_subtitles"⟩) ∧
    (∀ env2 : Env,
      (processVideo env2 (processVideo env db url vid sk1 lang).db
          url vid true lang).result = .ok (.skipped "no_subtitles") ∧
      (processVideo env2 (processVideo env db url vid sk1 lang).db
          url vid true lang).calledSubtitles = false) ∧
    (∀ env2 : Env,
      (processVideo env2 (processVideo env db url vid sk1 lang).db
          url vid false lang).calledSubtitles = true) ∧
    ((processVideo envE db url vid sk1 lang).result = .error m ∧
     (processVideo envE db url vid sk1 lang).db = db) ∧
    (processVideo envE db url vid true lang).calledSubtitles = true := by
  have e1 : processVideo env db url vid sk1 lang =
      { result := .ok (.skipped "no_subtitles"),
        db := insertIgnoreSkip db
          ⟨vid, url, orUnknown (env.ytInfo url).channel,
           orUnknown (env.ytInfo url).title, "no_subtitles"⟩,
        calledSubtitles := true } := by
    rw [processVideo_pre_none env db url vid lang sk1 hstore hskip]
    exact processVideo_false_noSubtitles env db url vid lang t hs hb
  have hrec : (processVideo env db url vid sk1 lang).db.findSkip vid
      = some ⟨vid, url, orUnknown (env.ytInfo url).channel,
              orUnknown (env.ytInfo url).title, "no_subtitles"⟩ := by
    rw [e1]
    exact findSkip_insertIgnoreSkip_self db _ hskip
  have eE : processVideo envE db url vid sk1 lang =
      { result := .error m, db := db, calledSubtitles := true } := by
    rw [processVideo_pre_none envE db url vid lang sk1 hstore hskip]
    exact processVideo_false_throws envE db url vid lang m hsE
  refine ⟨⟨by rw [e1], hrec⟩, ?_, ?_, ⟨by rw [eE], by rw [eE]⟩, ?_⟩
  · intro env2
    have hstore2 : (processVideo env db url vid sk1 lang).db.urlInPodcasts url
        = false := by
      rw [e1]
      rw [urlInPodcasts_insertIgnoreSkip]
      exact hstore
    have := processVideo_true_skipHit env2
      (processVideo env db url vid sk1 lang).db url vid lang
      ⟨vid, url, orUnknown (env.ytInfo url).channel,
       orUnknown (env.ytInfo url).title, "no_subtitles"⟩ hstore2 hrec
    rw [this]
    exact ⟨rfl, rfl⟩
  · intro env2
    exact processVideo_false_calls_subtitles env2
      (processVideo env db url vid sk1 lang).db url vid lang
  · exact processVideo_calls_subtitles envE db url vid lang true hstore hskip

/-- Witness for the amended C5: the scenario environment at `u3` (null
transcript) and the error environment (throwing fetch), starting from
the empty database, exercising both second-run modes. -/
theorem no_transcript_skip_persists_and_failures_retry_witness :
    ((processVideo scenarioEnv emptyDb "u3" "id3" false "en").result
        = .ok (.skipped "no_subtitles") ∧
     (processVideo scenarioEnv emptyDb "u3" "id3" false "en").db.findSkip "id3"
        = some ⟨"id3", "u3", "C", "T", "no_subtitles"⟩) ∧
    ((processVideo errEnv (processVideo scenarioEnv emptyDb "u3" "id3" false "en").db
        "u3" "id3" true "en").calledSubtitles = false) ∧
    ((processVideo errEnv (processVideo scenarioEnv emptyDb "u3" "id3" false "en").db
        "u3" "id3" false "en").calledSubtitles = true) ∧
    ((processVideo errEnv emptyDb "u3" "id3" false "en").result = .error "x" ∧
     (processVideo errEnv emptyDb "u3" "id3" true "en").calledSubtitles = true) := by
  have main := no_transcript_skip_persists_and_failures_retry
    scenarioEnv errEnv emptyDb "u3" "id3" "en" none "x" false
    rfl rfl rfl rfl rfl
  exact ⟨⟨main.1.1, main.1.2⟩, (main.2.1 errEnv).2, main.2.2.1 errEnv,
    ⟨main.2.2.2.1.1, main.2.2.2.2⟩⟩

/-- C6 (corrected, counterexample): the dedup of the channel-ingestion
orchestrator (`processChannelAsync`) does not exclude Skip-Ledger
candidates: for a 1-candidate list whose only item is recorded in the
Skip Ledger (and an empty Item Store, so `N = 1`, `M = ∅`, `K` = that
item and `N - |M ∪ K| = 0`), it returns 1 candidate, not 0. -/
theorem channelDedup_ignores_skip_ledger_counterexample :
    channelDedup skipOnlyDb [sv3] = [sv3] ∧
    skipOnlyDb.podcasts = [] ∧
    skipOnlyDb.findSkip sv3.id
      = some ⟨"id3", "u3", "C", "t3", "prior_reason"⟩ := by
  refine ⟨rfl, rfl, rfl⟩

/-- C6 (amended): the dedup of the process-missing path keeps exactly the
candidates whose id is in neither the Item-Store id set nor the
Skip-Ledger id set, and so returns exactly `N - |M ∪ K|` candidates
(`M ∪ K` counted as the candidates matching either set); the dedup of
the channel-ingestion path excludes only Item-Store candidates,
returning `N - |M|`. -/
theorem dedup_filter_counts :
    (∀ (env : Env) (db : DB) (ch : String) (candidates : List VideoRef),
      missingDedup (buildProcessedIds env db ch) candidates
        = candidates.filter (fun v =>
            !((storeIdsFor env db ch).contains v.id)
            && !((skipIdsFor db ch).contains v.id)) ∧
      (missingDedup (buildProcessedIds env db ch) candidates).length
        = candidates.length
          - (candidates.filter (fun v =>
              (storeIdsFor env db ch).contains v.id
              || (skipIdsFor db ch).contains v.id)).length) ∧
    (∀ (db : DB) (candidates : List VideoRef),
      (channelDedup db candidates).length
        = candidates.length
          - (candidates.filter (fun v =>
              (db.podcasts.map (fun p => p.url)).contains v.url)).length) := by
  have hunion : ∀ (env : Env) (db : DB) (ch : String) (v : VideoRef),
      (buildProcessedIds env db ch).contains v.id
        = ((storeIdsFor env db ch).contains v.id
           || (skipIdsFor db ch).contains v.id) := by
    intro env db ch v
    unfold buildProcessedIds
    simp [List.contains_eq_any_beq, List.any_append]
  refine ⟨fun env db ch candidates => ⟨?_, ?_⟩, fun db candidates => ?_⟩
  · unfold missingDedup
    refine List.filter_congr ?_
    intro v _
    rw [hunion, Bool.not_or]
  · unfold missingDedup
    calc (candidates.filter (fun v =>
          !((buildProcessedIds env db ch).contains v.id))).length
        = (candidates.filter (fun v =>
            !((storeIdsFor env db ch).contains v.id
              || (skipIdsFor db ch).contains v.id))).length := by
          refine congrArg List.length (List.filter_congr ?_)
          intro v _
          rw [hunion]
      _ = candidates.length
          - (candidates.filter (fun v =>
              (storeIdsFor env db ch).contains v.id
              || (skipIdsFor db ch).contains v.id)).length :=
          length_filter_not _ candidates
  · unfold channelDedup
    exact length_filter_not _ candidates

/-- C7 (corrected, counterexample): at equal counts (5 live, 5 ingested)
over a NON-EMPTY live source, with no recorded newest-ingested date and
a failing per-video detail call (so `lastVideoDate` stays null), the
refresh-channel-count decision returns `hasNew = false` — the claimed
conservative fallback ("no count gap, no recorded date, at least one
ingested item, non-empty live source ⇒ hasNew = true") does not fire,
because the code's third branch requires `lastVideoDate` to be non-null,
not merely a non-empty live source. -/
theorem sync_checker_fallback_counterexample :
    refreshChannelCountDecision [sv1, sv2, sv3, sv4, sv5]
      (fun _ => .error "detail failed") 5 none = false ∧
    ([sv1, sv2, sv3, sv4, sv5] : List VideoRef).length = 5 := by
  refine ⟨rfl, rfl⟩

/-- C7 (amended): the Sync Checker decision of
`POST /api/refresh-channel-count` follows the claimed priority order
with the fallback condition tightened: a positive count gap forces
`hasNew = true` (with the returned `missingVideos` equal to that
positive gap) regardless of dates; with no count gap and both dates
present the decision is exactly `liveDate > recordedDate`; with no count
gap, no recorded date, at least one ingested item, and a live newest
date successfully determined, the decision is `true` — but when the
live newest date could not be determined the decision is `false`, even
over a non-empty live source.  A live newest date is obtained exactly
when the listing is non-empty, its first video has an id, and the
per-video detail call succeeds with an upload date. -/
theorem sync_checker_priority_order :
    (∀ (tv dbc : Nat) (ld nd : Option Nat), dbc < tv →
      hasNewVideosDecision tv dbc ld nd = true ∧
      0 < missingVideosCount tv dbc ∧
      missingVideosCount tv dbc = (tv : Int) - (dbc : Int)) ∧
    (∀ (tv dbc l n : Nat), tv ≤ dbc →
      hasNewVideosDecision tv dbc (some l) (some n) = decide (n < l)) ∧
    (∀ (tv dbc l : Nat), tv ≤ dbc → 0 < dbc →
      hasNewVideosDecision tv dbc (some l) none = true) ∧
    (∀ (tv dbc : Nat) (nd : Option Nat), tv ≤ dbc →
      hasNewVideosDecision tv dbc none nd = false) ∧
    (∀ (v : VideoRef) (rest : List VideoRef)
       (detail : String → Except String (Option Nat)) (d : Nat),
      v.id ≠ "" → detail v.id = .ok (some d) →
      lastVideoDateOf (v :: rest) detail = some d) := by
  refine ⟨?_, ?_, ?_, ?_, ?_⟩
  · intro tv dbc ld nd h
    refine ⟨?_, by unfold missingVideosCount; omega, rfl⟩
    unfold hasNewVideosDecision
    rw [if_pos (by omega)]
  · intro tv dbc l n h
    unfold hasNewVideosDecision
    rw [if_neg (by omega)]
  · intro tv dbc l h h2
    unfold hasNewVideosDecision
    rw [if_neg (by omega)]
    simpa using h2
  · intro tv dbc nd h
    unfold hasNewVideosDecision
    rw [if_neg (by omega)]
  · intro v rest detail d hid hd
    unfold lastVideoDateOf
    simp [hid, hd]

/-- Witness for the amended C7: the spec's probe points —
`liveTotal = 120, ingested = 100` (gap wins), equal counts with
`liveDate 5 > recordedDate 3`, equal counts with no recorded date and a
determined live date — plus the negative branch at a null live date and
a successful live-date derivation. -/
theorem sync_checker_priority_order_witness :
    (hasNewVideosDecision 120 100 none none = true ∧
     0 < missingVideosCount 120 100) ∧
    hasNewVideosDecision 100 100 (some 5) (some 3) = decide ((3 : Nat) < 5) ∧
    hasNewVideosDecision 100 100 (some 5) none = true ∧
    hasNewVideosDecision 5 5 none none = false ∧
    lastVideoDateOf [sv1] (fun _ => .ok (some 7)) = some 7 := by
  refine ⟨?_, ?_, ?_, ?_, ?_⟩
  · have h := sync_checker_priority_order.1 120 100 none none (by decide)
    exact ⟨h.1, h.2.1⟩
  · exact sync_checker_priority_order.2.1 100 100 5 3 (by decide)
  · exact sync_checker_priority_order.2.2.1 100 100 5 (by decide) (by decide)
  · exact sync_checker_priority_order.2.2.2.1 5 5 none (by decide)
  · exact sync_checker_priority_order.2.2.2.2 sv1 [] (fun _ => .ok (some 7)) 7
      (by decide) rfl

/-- C10 (confirmed): every channel/playlist submission through
`POST /api/process` starts the orchestrator with a listing bound of
`min(maxVideos, 100)` (default `maxVideos = 50`), so at every observable
point of such a job both the fetched candidate count
(`totalVideosOnYoutube`) and `total` stay at most 100, for any requested
`maxVideos`. -/
theorem api_process_max_videos_cap :
    (∀ req : Option Nat, apiProcessMaxVideos req ≤ 100) ∧
    apiProcessMaxVideos none = 50 ∧
    (∀ (env : Env) (db : DB) (url : String) (req : Option Nat) (lang : String),
      ∀ s ∈ (apiProcessChannelStart env db url req lang).1,
        s.totalVideosOnYoutube ≤ 100 ∧ s.total ≤ 100) := by
  refine ⟨?_, rfl, ?_⟩
  · intro req
    unfold apiProcessMaxVideos
    omega
  · intro env db url req lang s hs
    have h1 := processChannelAsync_tvy_le env db url (apiProcessMaxVideos req)
      lang s hs
    have h2 := (processChannelAsync_outcome_bound env db url
      (apiProcessMaxVideos req) lang s hs).2
    have h3 : apiProcessMaxVideos req ≤ 100 := by
      unfold apiProcessMaxVideos
      omega
    exact ⟨by omega, by omega⟩

/-- Witness for C10: a request with `maxVideos = 250` is capped to 100,
an absent `maxVideos` defaults to 50, and the hundred-video job's
terminal snapshot respects both bounds. -/
theorem api_process_max_videos_cap_witness :
    apiProcessMaxVideos (some 250) ≤ 100 ∧
    apiProcessMaxVideos none = 50 ∧
    (hundredRun.2.1.totalVideosOnYoutube ≤ 100 ∧ hundredRun.2.1.total ≤ 100) := by
  refine ⟨api_process_max_videos_cap.1 (some 250), api_process_max_videos_cap.2.1, ?_⟩
  exact api_process_max_videos_cap.2.2 hundredEnv emptyDb "c100" (some 100) "en"
    hundredRun.2.1 (by decide)

/-- Witness for the amended C1: the general theorem applied to the
concrete end-to-end scenario. -/
theorem five_candidate_scenario_final_state_witness :
    (processChannelAsync scenarioEnv scenarioDb "chan" 100 "en").2.1.status
      = "completed" ∧
    (processChannelAsync scenarioEnv scenarioDb "chan" 100 "en").2.1.total = 3 ∧
    (processChannelAsync scenarioEnv scenarioDb "chan" 100 "en").2.1.processed = 1 ∧
    (processChannelAsync scenarioEnv scenarioDb "chan" 100 "en").2.1.skipped = 3 ∧
    (processChannelAsync scenarioEnv scenarioDb "chan" 100 "en").2.1.failed = 1 :=
  five_candidate_scenario_final_state scenarioEnv scenarioDb "chan" "en"
    "network error" tlong "S" 100 sv1 sv2 sv3 sv4 sv5
    rfl rfl rfl rfl rfl rfl rfl rfl rfl (by decide) rfl

/-- C2 (corrected, counterexample): at the terminal snapshot of the
end-to-end scenario job — an element of the job's observable trace —
`total = 3` but `processed + skipped + failed = 5`, because the two
dedup-filtered candidates are credited to `skipped` while `total` counts
only the post-dedup candidates.  This refutes
"processed + skipped + failed never exceeds total once total is set". -/
theorem outcome_sum_exceeds_total_counterexample :
    (processChannelAsync scenarioEnv scenarioDb "chan" 100 "en").2.1.total = 3 ∧
    (processChannelAsync scenarioEnv scenarioDb "chan" 100 "en").2.1.outcomeSum = 5 ∧
    (processChannelAsync scenarioEnv scenarioDb "chan" 100 "en").2.1
      ∈ (processChannelAsync scenarioEnv scenarioDb "chan" 100 "en").1 := by
  refine ⟨rfl, rfl, by decide⟩

/-- C2 (amended): at every observable point of a channel-ingestion job,
`processed + skipped + failed` never exceeds the number of fetched
candidates (`totalVideosOnYoutube` = `total` plus the pre-known skipped
count, since `total` never exceeds `totalVideosOnYoutube`); for
missing-video and retry jobs the original bound by `total` does hold at
every observable point. -/
theorem outcome_sum_bounded_by_fetched_candidates :
    (∀ (env : Env) (db : DB) (url : String) (mv : Nat) (lang : String),
      ∀ s ∈ (processChannelAsync env db url mv lang).1,
        s.outcomeSum ≤ s.totalVideosOnYoutube ∧
        s.total ≤ s.totalVideosOnYoutube) ∧
    (∀ (env : Env) (db : DB) (url : String) (name : Option String)
       (ids : List String) (lang : String),
      ∀ s ∈ (processMissingVideosAsync env db url name ids lang).1,
        s.outcomeSum ≤ s.total) ∧
    (∀ (env : Env) (db : DB) (url name : String) (svs : List SkipRecord)
       (lang : String),
      ∀ s ∈ (retrySkippedVideosAsync env db url name svs lang).1,
        s.outcomeSum ≤ s.total) :=
  ⟨processChannelAsync_outcome_bound, processMissingVideosAsync_outcome_bound,
   retrySkippedVideosAsync_outcome_bound⟩

/-- Witness for the amended C2 bound, applied at the terminal snapshots
of three concrete jobs. -/
theorem outcome_sum_bounded_by_fetched_candidates_witness :
    ((processChannelAsync scenarioEnv scenarioDb "chan" 100 "en").2.1.outcomeSum
      ≤ (processChannelAsync scenarioEnv scenarioDb "chan" 100 "en").2.1.totalVideosOnYoutube) ∧
    ((processMissingVideosAsync errEnv emptyDb "c" none [] "en").2.1.outcomeSum
      ≤ (processMissingVideosAsync errEnv emptyDb "c" none [] "en").2.1.total) ∧
    ((retrySkippedVideosAsync scenarioEnv emptyDb "c" "C" [] "en").2.1.outcomeSum
      ≤ (retrySkippedVideosAsync scenarioEnv emptyDb "c" "C" [] "en").2.1.total) := by
  refine ⟨?_, ?_, ?_⟩
  · exact (outcome_sum_bounded_by_fetched_candidates.1 scenarioEnv scenarioDb
      "chan" 100 "en" _ (by decide)).1
  · exact outcome_sum_bounded_by_fetched_candidates.2.1 errEnv emptyDb
      "c" none [] "en" _ (by decide)
  · exact outcome_sum_bounded_by_fetched_candidates.2.2 scenarioEnv emptyDb
      "c" "C" [] "en" _ (by decide)

/-- C3 (corrected, counterexample): a channel job submitted through
`POST /api/process` over a 100-candidate channel (the largest candidate
set the endpoint permits) ends with 100 `results` entries —
`processChannelAsync` never truncates `results`, so the ≈10-entry bound
fails for channel-ingestion jobs. -/
theorem channel_job_results_unbounded_counterexample :
    hundredRun.2.1.results.length = 100 ∧
    hundredRun.2.1 ∈ hundredRun.1 := by
  refine ⟨rfl, by decide⟩

/-- C3 (amended): for missing-video jobs and retry jobs, `results` never
holds more than the most recent 10 entries at any observable point, and
at completion `processed + skipped + failed` equals `total`, the exact
number of candidate items actually visited; channel-ingestion jobs never
truncate `results`. -/
theorem bounded_results_for_missing_and_retry_jobs :
    (∀ (env : Env) (db : DB) (url : String) (name : Option String)
       (ids : List String) (lang : String),
      (∀ s ∈ (processMissingVideosAsync env db url name ids lang).1,
        s.results.length ≤ 10) ∧
      (processMissingVideosAsync env db url name ids lang).2.1.outcomeSum
        = (processMissingVideosAsync env db url name ids lang).2.1.total) ∧
    (∀ (env : Env) (db : DB) (url name : String) (svs : List SkipRecord)
       (lang : String),
      (∀ s ∈ (retrySkippedVideosAsync env db url name svs lang).1,
        s.results.length ≤ 10) ∧
      (retrySkippedVideosAsync env db url name svs lang).2.1.outcomeSum
        = (retrySkippedVideosAsync env db url name svs lang).2.1.total) :=
  ⟨processMissingVideosAsync_results_bound, retrySkippedVideosAsync_results_bound⟩

/-- Witness for the amended C3 bound: a missing-videos run over the
hundred-video environment keeps `results` at 10 entries at its terminal
snapshot while `processed + skipped + failed = total = 100`. -/
theorem bounded_results_for_missing_and_retry_jobs_witness :
    ((processMissingVideosAsync hundredEnv emptyDb "c100" none [] "en").2.1.results.length
      ≤ 10) ∧
    ((processMissingVideosAsync hundredEnv emptyDb "c100" none [] "en").2.1.outcomeSum
      = (processMissingVideosAsync hundredEnv emptyDb "c100" none [] "en").2.1.total) ∧
    ((retrySkippedVideosAsync scenarioEnv emptyDb "c" "C" [] "en").2.1.results.length
      ≤ 10) := by
  refine ⟨?_, ?_, ?_⟩
  · exact (bounded_results_for_missing_and_retry_jobs.1 hundredEnv emptyDb
      "c100" none [] "en").1 _ (by decide)
  · exact (bounded_results_for_missing_and_retry_jobs.1 hundredEnv emptyDb
      "c100" none [] "en").2
  · exact (bounded_results_for_missing_and_retry_jobs.2 scenarioEnv emptyDb
      "c" "C" [] "en").1 _ (by decide)

/-- C8 (confirmed): once a job's status reaches `completed` or `error`,
no field of that job mutates afterwards — in every trace of observable
snapshots of `processChannelAsync`, `processMissingVideosAsync` and
`retrySkippedVideosAsync`, any snapshot at or after a terminal one is
equal to it, so every subsequent poll of
`GET /api/channel-status/:jobId` returns an identical payload. -/
theorem terminal_job_state_immutable :
    (∀ (env : Env) (db : DB) (url : String) (mv : Nat) (lang : String)
       (i k : Nat)
       (hi : i < (processChannelAsync env db url mv lang).1.length)
       (hk : k < (processChannelAsync env db url mv lang).1.length),
       i ≤ k →
       (((processChannelAsync env db url mv lang).1.get ⟨i, hi⟩).status = "completed" ∨
        ((processChannelAsync env db url mv lang).1.get ⟨i, hi⟩).status = "error") →
       (processChannelAsync env db url mv lang).1.get ⟨k, hk⟩
         = (processChannelAsync env db url mv lang).1.get ⟨i, hi⟩ ∧
       channelStatusPayload ((processChannelAsync env db url mv lang).1.get ⟨k, hk⟩)
         = channelStatusPayload ((processChannelAsync env db url mv lang).1.get ⟨i, hi⟩)) ∧
    (∀ (env : Env) (db : DB) (url : String) (name : Option String)
       (ids : List String) (lang : String) (i k : Nat)
       (hi : i < (processMissingVideosAsync env db url name ids lang).1.length)
       (hk : k < (processMissingVideosAsync env db url name ids lang).1.length),
       i ≤ k →
       (((processMissingVideosAsync env db url name ids lang).1.get ⟨i, hi⟩).status = "completed" ∨
        ((processMissingVideosAsync env db url name ids lang).1.get ⟨i, hi⟩).status = "error") →
       (processMissingVideosAsync env db url name ids lang).1.get ⟨k, hk⟩
         = (processMissingVideosAsync env db url name ids lang).1.get ⟨i, hi⟩ ∧
       channelStatusPayload ((processMissingVideosAsync env db url name ids lang).1.get ⟨k, hk⟩)
         = channelStatusPayload ((processMissingVideosAsync env db url name ids lang).1.get ⟨i, hi⟩)) ∧
    (∀ (env : Env) (db : DB) (url name : String)
       (svs : List SkipRecord) (lang : String) (i k : Nat)
       (hi : i < (retrySkippedVideosAsync env db url name svs lang).1.length)
       (hk : k < (retrySkippedVideosAsync env db url name svs lang).1.length),
       i ≤ k →
       (((retrySkippedVideosAsync env db url name svs lang).1.get ⟨i, hi⟩).status = "completed" ∨
        ((retrySkippedVideosAsync env db url name svs lang).1.get ⟨i, hi⟩).status = "error") →
       (retrySkippedVideosAsync env db url name svs lang).1.get ⟨k, hk⟩
         = (retrySkippedVideosAsync env db url name svs lang).1.get ⟨i, hi⟩ ∧
       channelStatusPayload ((retrySkippedVideosAsync env db url name svs lang).1.get ⟨k, hk⟩)
         = channelStatusPayload ((retrySkippedVideosAsync env db url name svs lang).1.get ⟨i, hi⟩)) := by
  refine ⟨?_, ?_, ?_⟩
  · intro env db url mv lang i k hi hk hik ht
    have heq := trace_stable_after_terminal
      (processChannelAsync_dropLast_nonterminal env db url mv lang) hi hk hik ht
    exact ⟨heq, congrArg channelStatusPayload heq⟩
  · intro env db url name ids lang i k hi hk hik ht
    have heq := trace_stable_after_terminal
      (processMissingVideosAsync_dropLast_nonterminal env db url name ids lang) hi hk hik ht
    exact ⟨heq, congrArg channelStatusPayload heq⟩
  · intro env db url name svs lang i k hi hk hik ht
    have heq := trace_stable_after_terminal
      (retrySkippedVideosAsync_dropLast_nonterminal env db url name svs lang) hi hk hik ht
    exact ⟨heq, congrArg channelStatusPayload heq⟩

/-- Witness for C8: the theorem applied at the end-to-end scenario job
(terminal snapshot at index 9 of its 10-snapshot trace), at a
missing-videos job whose listing fails (terminal `error` snapshot at
index 2), and at a retry job with no videos (terminal snapshot at
index 2). -/
theorem terminal_job_state_immutable_witness :
    ((processChannelAsync scenarioEnv scenarioDb "chan" 100 "en").1.get
        ⟨9, by decide⟩
      = (processChannelAsync scenarioEnv scenarioDb "chan" 100 "en").1.get
        ⟨9, by decide⟩) ∧
    ((processMissingVideosAsync errEnv emptyDb "c" none [] "en").1.get
        ⟨2, by decide⟩
      = (processMissingVideosAsync errEnv emptyDb "c" none [] "en").1.get
        ⟨2, by decide⟩) ∧
    ((retrySkippedVideosAsync scenarioEnv emptyDb "c" "C" [] "en").1.get
        ⟨2, by decide⟩
      = (retrySkippedVideosAsync scenarioEnv emptyDb "c" "C" [] "en").1.get
        ⟨2, by decide⟩) := by
  refine ⟨?_, ?_, ?_⟩
  · exact (terminal_job_state_immutable.1 scenarioEnv scenarioDb "chan" 100 "en"
      9 9 (by decide) (by decide) (le_refl 9) (by decide)).1
  · exact (terminal_job_state_immutable.2.1 errEnv emptyDb "c" none [] "en"
      2 2 (by decide) (by decide) (le_refl 2) (by decide)).1
  · exact (terminal_job_state_immutable.2.2 scenarioEnv emptyDb "c" "C" [] "en"
      2 2 (by decide) (by decide) (le_refl 2) (by decide)).1

end SpotifySearch
